import Mathlib

/-!
Verification of the autograsper orchestration core: a shallow embedding of
the coordinator's relay loop (`coordinator.py::_process_messages`), the task
runner's state machine (`grasper.py::run_grasping`), the recorder's capture
loop (`recording.py::record` and `_capture_frame`), the session directory
allocator (`file_manager.py::get_session_dirs`), the snapshot-request
protocol, and the preview pull (`coordinator.py::get_ui_update`).

Machine integers do not occur (Python integers are unbounded); counters are
modelled as `Int`/`Nat`.  Stateful loops are modelled as explicit folds or
fuel-indexed recursion over their inputs.
-/

namespace Autograsper

/-- Task-runner state enumeration, from `grasper.py::RobotActivity`. -/
inductive RobotActivity
  | ACTIVE
  | RESETTING
  | FINISHED
  | STARTUP
deriving DecidableEq, Repr

/-! ### Relay loop (`coordinator.py::_process_messages`) -/

/-- Abstract names for the side-effecting handlers the relay loop invokes
on a state change.  `startupReentry` is the pause/sleep/resume block of
`_on_state_transition` (its body is further conditioned on a recorder
existing); `createDataPoint` is `_create_new_data_point`; the entry
handlers are `_on_active_state`, `_on_resetting_state`,
`_on_finished_state`. -/
inductive RelayAction
  | startupReentry
  | createDataPoint
  | activeEntry
  | resettingEntry
  | finishedEntry
deriving DecidableEq, Repr

/-- Actions performed by `coordinator.py::_on_state_transition`: it acts
only when the new state is STARTUP and the old one is not. -/
def onStateTransitionActs (old new : RobotActivity) : List RelayAction :=
  if new = RobotActivity.STARTUP ∧ old ≠ RobotActivity.STARTUP then
    [RelayAction.startupReentry]
  else []

/-- The relay loop of `coordinator.py::_process_messages`, as a function
from the FIFO sequence of `state_update` messages to the sequence of
handler invocations it performs.  `prev` is the `prev_state` local
(initialised to STARTUP by the code); a message equal to `prev` does
nothing; a differing message runs `_on_state_transition` and then the
entry handler for the new state, with `_create_new_data_point` run first
on ACTIVE entry when `save_data` is set; on FINISHED the loop breaks. -/
def processMessages (saveData : Bool) : RobotActivity → List RobotActivity → List RelayAction
  | _, [] => []
  | prev, m :: ms =>
    if m = prev then
      processMessages saveData prev ms
    else
      onStateTransitionActs prev m ++
      match m with
      | RobotActivity.ACTIVE =>
          ((if saveData then [RelayAction.createDataPoint] else []) ++
            [RelayAction.activeEntry]) ++ processMessages saveData m ms
      | RobotActivity.RESETTING =>
          [RelayAction.resettingEntry] ++ processMessages saveData m ms
      | RobotActivity.FINISHED => [RelayAction.finishedEntry]
      | RobotActivity.STARTUP => processMessages saveData m ms

/-- Specification-side view: the list of state *changes* in a FIFO message
sequence — one entry per transition, in order of occurrence, a message
equal to the previously handled state contributing nothing, and the list
ending at the first transition into FINISHED (the relay loop exits there). -/
def stateChanges : RobotActivity → List RobotActivity → List (RobotActivity × RobotActivity)
  | _, [] => []
  | prev, m :: ms =>
    if m = prev then stateChanges prev ms
    else (prev, m) :: (if m = RobotActivity.FINISHED then [] else stateChanges m ms)

/-- Specification-side view: the bundle of state-entry actions that one
transition must trigger, exactly once. -/
def entryActions (saveData : Bool) (t : RobotActivity × RobotActivity) : List RelayAction :=
  onStateTransitionActs t.1 t.2 ++
  match t.2 with
  | RobotActivity.ACTIVE =>
      (if saveData then [RelayAction.createDataPoint] else []) ++ [RelayAction.activeEntry]
  | RobotActivity.RESETTING => [RelayAction.resettingEntry]
  | RobotActivity.FINISHED => [RelayAction.finishedEntry]
  | RobotActivity.STARTUP => []

/-- C1: the relay loop performs the state-entry actions exactly once per
state change and in the FIFO order of the message queue: its action
sequence is exactly the concatenation, over the list of state changes in
message order, of the entry-action bundle of each change; messages whose
state equals the previously handled state contribute nothing. -/
theorem relay_entry_actions_once_per_change_fifo (saveData : Bool)
    (prev : RobotActivity) (msgs : List RobotActivity) :
    processMessages saveData prev msgs =
      (stateChanges prev msgs).flatMap (entryActions saveData) := by
  induction msgs generalizing prev with
  | nil => rfl
  | cons m ms ih =>
    by_cases h : m = prev
    · simp [processMessages, stateChanges, h, ih]
    · cases m <;>
        simp [processMessages, stateChanges, h, ih, entryActions]

/-! ### Task-runner state machine (`grasper.py::run_grasping`) -/

/-- Outcome of one `perform_task()` call (external interface §6): it may
return normally, request early termination by setting `self.state` to
FINISHED, or raise an exception. -/
inductive TaskOutcome
  | success
  | setsFinished
  | raises
deriving DecidableEq, Repr

/-- Observable result of a `run_grasping` execution: the successive values
assigned to `self.state` (the initial state is not included), the state at
loop exit, the `failed` flag at exit, how many times `recover_after_fail`
and `reset_task` ran, and whether an exception propagated out of
`run_grasping`. -/
structure RunResult where
  trace : List RobotActivity
  final : RobotActivity
  failed : Bool
  recoveries : Nat
  resets : Nat
  raised : Bool
deriving DecidableEq, Repr

/-- Record one state assignment at the front of a run's trace. -/
def prependTrace (s : RobotActivity) (r : RunResult) : RunResult :=
  { r with trace := s :: r.trace }

/-- The `run_grasping` loop of `grasper.py`, fuel-indexed.  `outs k` is the
outcome of the k-th `perform_task()` call.  STARTUP runs the startup hook
and sets ACTIVE; ACTIVE waits for the start signal then runs the task: on
an exception the code sets `failed = True` and re-raises (the
`shutdown_event.set()` after the `raise` is unreachable), on a FINISHED
request the loop breaks, on success it sets RESETTING; RESETTING sleeps,
then runs `recover_after_fail` and clears `failed` if it was set, else
runs `reset_task`, and sets STARTUP; the loop exits when the state is
FINISHED.  The externally-owned shutdown event (which can only break the
loop early, never add a transition) is not modelled. -/
def runGrasping (outs : Nat → TaskOutcome) : Nat → Nat → RobotActivity → Bool → RunResult
  | 0, _, st, failed => ⟨[], st, failed, 0, 0, false⟩
  | fuel + 1, k, st, failed =>
    match st with
    | RobotActivity.FINISHED => ⟨[], RobotActivity.FINISHED, failed, 0, 0, false⟩
    | RobotActivity.STARTUP =>
        prependTrace RobotActivity.ACTIVE
          (runGrasping outs fuel k RobotActivity.ACTIVE failed)
    | RobotActivity.ACTIVE =>
        match outs k with
        | TaskOutcome.raises => ⟨[], RobotActivity.ACTIVE, true, 0, 0, true⟩
        | TaskOutcome.setsFinished =>
            ⟨[RobotActivity.FINISHED], RobotActivity.FINISHED, failed, 0, 0, false⟩
        | TaskOutcome.success =>
            prependTrace RobotActivity.RESETTING
              (runGrasping outs fuel (k + 1) RobotActivity.RESETTING failed)
    | RobotActivity.RESETTING =>
        if failed then
          let r := prependTrace RobotActivity.STARTUP
            (runGrasping outs fuel k RobotActivity.STARTUP false)
          { r with recoveries := r.recoveries + 1 }
        else
          let r := prependTrace RobotActivity.STARTUP
            (runGrasping outs fuel k RobotActivity.STARTUP false)
          { r with resets := r.resets + 1 }

/-- The full observed state sequence of a run: initial state followed by
every state assigned during the run. -/
def observedStates (init : RobotActivity) (r : RunResult) : List RobotActivity :=
  init :: r.trace

/-- Adjacent pairs of a list: the transitions of a state sequence. -/
def transitionsOf {α : Type} (l : List α) : List (α × α) :=
  l.zip l.tail

/-- The set of transitions allowed by the claim: the cycle
STARTUP→ACTIVE→RESETTING→STARTUP, with RESETTING→FINISHED as the only
termination edge. -/
def claimTransition : RobotActivity × RobotActivity → Bool
  | (RobotActivity.STARTUP, RobotActivity.ACTIVE) => true
  | (RobotActivity.ACTIVE, RobotActivity.RESETTING) => true
  | (RobotActivity.RESETTING, RobotActivity.STARTUP) => true
  | (RobotActivity.RESETTING, RobotActivity.FINISHED) => true
  | _ => false

/-- The set of transitions the code actually takes: the same cycle, but the
termination edge is ACTIVE→FINISHED (`perform_task` sets FINISHED during
ACTIVE and the loop then breaks). -/
def codeTransition : RobotActivity × RobotActivity → Bool
  | (RobotActivity.STARTUP, RobotActivity.ACTIVE) => true
  | (RobotActivity.ACTIVE, RobotActivity.RESETTING) => true
  | (RobotActivity.RESETTING, RobotActivity.STARTUP) => true
  | (RobotActivity.ACTIVE, RobotActivity.FINISHED) => true
  | _ => false

theorem transitionsOf_cons_cons {α : Type} (a b : α) (l : List α) :
    transitionsOf (a :: b :: l) = (a, b) :: transitionsOf (b :: l) := rfl

/-- Helper: from any state, every transition of a run is a code transition. -/
theorem runGrasping_transitions_aux (outs : Nat → TaskOutcome) :
    ∀ (fuel k : Nat) (st : RobotActivity) (failed : Bool),
      (transitionsOf (observedStates st (runGrasping outs fuel k st failed))).all
        codeTransition = true := by
  intro fuel
  induction fuel with
  | zero => intro k st failed; rfl
  | succ fuel ih =>
    intro k st failed
    cases st with
    | FINISHED => rfl
    | STARTUP =>
      have h := ih k RobotActivity.ACTIVE failed
      simp only [runGrasping, prependTrace, observedStates] at h ⊢
      rw [transitionsOf_cons_cons]
      simpa [codeTransition] using h
    | ACTIVE =>
      cases houts : outs k with
      | raises => simp [runGrasping, houts, observedStates, transitionsOf]
      | setsFinished =>
        simp [runGrasping, houts, observedStates, transitionsOf, codeTransition]
      | success =>
        have h := ih (k + 1) RobotActivity.RESETTING failed
        simp only [runGrasping, houts, prependTrace, observedStates] at h ⊢
        rw [transitionsOf_cons_cons]
        simpa [codeTransition] using h
    | RESETTING =>
      cases hf : failed with
      | true =>
        have h := ih k RobotActivity.STARTUP false
        simp only [runGrasping, hf, prependTrace, observedStates, if_pos] at h ⊢
        rw [transitionsOf_cons_cons]
        simpa [codeTransition] using h
      | false =>
        have h := ih k RobotActivity.STARTUP false
        simp only [runGrasping, hf, prependTrace, observedStates,
          Bool.false_eq_true, if_neg, not_false_eq_true] at h ⊢
        rw [transitionsOf_cons_cons]
        simpa [codeTransition] using h

/-- C4 counterexample: when the task explicitly requests termination
(`perform_task` sets the state to FINISHED), the run from STARTUP takes
the transition ACTIVE→FINISHED, which the claim's allowed set (termination
only via RESETTING→FINISHED) excludes. -/
theorem run_grasping_active_to_finished_counterexample :
    transitionsOf (observedStates RobotActivity.STARTUP
        (runGrasping (fun _ => TaskOutcome.setsFinished) 4 0 RobotActivity.STARTUP false)) =
      [(RobotActivity.STARTUP, RobotActivity.ACTIVE),
       (RobotActivity.ACTIVE, RobotActivity.FINISHED)] ∧
    claimTransition (RobotActivity.ACTIVE, RobotActivity.FINISHED) = false := by
  constructor <;> rfl

/-- C4 amended: in every execution of the run loop the state transitions
occur only in the cyclic order STARTUP→ACTIVE→RESETTING→STARTUP, with the
cycle broken by ACTIVE→FINISHED when the task explicitly requests
termination (`perform_task` sets the state to FINISHED during ACTIVE);
FINISHED is terminal: the run loop, started in FINISHED, performs no
transition and exits at once. -/
theorem run_grasping_transition_order (outs : Nat → TaskOutcome)
    (fuel k : Nat) (failed : Bool) :
    (transitionsOf (observedStates RobotActivity.STARTUP
        (runGrasping outs fuel k RobotActivity.STARTUP failed))).all
      codeTransition = true ∧
    runGrasping outs (fuel + 1) k RobotActivity.FINISHED failed =
      ⟨[], RobotActivity.FINISHED, failed, 0, 0, false⟩ :=
  ⟨runGrasping_transitions_aux outs fuel k RobotActivity.STARTUP failed, rfl⟩

/-- C2: evaluation of the embedded `run_grasping` at the failing input.
When `perform_task` raises during ACTIVE, the code sets the failed flag
and then re-raises: the run ends with an escaped exception while still in
ACTIVE; RESETTING is never entered, `recover_after_fail` never runs, and
the failed flag is never cleared — contradicting the claimed
failure-recovery path (the `shutdown_event.set()` after the `raise` is
unreachable, so the re-raise is a slip). -/
theorem run_grasping_raises_no_recovery :
    runGrasping (fun _ => TaskOutcome.raises) 5 0 RobotActivity.STARTUP false =
      ⟨[RobotActivity.ACTIVE], RobotActivity.ACTIVE, true, 0, 0, true⟩ ∧
    RobotActivity.RESETTING ∉
      observedStates RobotActivity.STARTUP
        (runGrasping (fun _ => TaskOutcome.raises) 5 0 RobotActivity.STARTUP false) := by
  exact ⟨rfl, by decide⟩

/-! ### Snapshot-request protocol
(`coordinator.py::_check_if_record_is_requested` requester side,
`recording.py::_capture_frame` finally-block capture side) -/

/-- Requester side, from `_check_if_record_is_requested`: under the
snapshot condition lock the counter is incremented by one
(`take_snapshot += 1`). -/
def reqIncrement (c : Int) : Int := c + 1

/-- Capture side, from the `finally` block of `_capture_frame`: under the
snapshot condition lock, if the counter is strictly positive it is
decremented by one, and `notify_all` fires exactly when the decrement
brings it to zero.  Returns the new counter and whether waiters were
woken. -/
def captureFinally (c : Int) : Int × Bool :=
  if 0 < c then (c - 1, decide (c - 1 = 0)) else (c, false)

/-- Requester wait loop, from `_check_if_record_is_requested`
(`while take_snapshot > 0: wait`): the waiter blocks exactly while the
counter is strictly positive. -/
def waiterBlocked (c : Int) : Bool := decide (0 < c)

/-- Run `m` capture-loop ticks, each applying the capture-side finally
block; the second component counts the effective decrements. -/
def captureTicks : Nat → Int × Nat → Int × Nat
  | 0, p => p
  | m + 1, (c, d) =>
      captureTicks m ((captureFinally c).1, if 0 < c then d + 1 else d)

/-- A serialized schedule of requester calls: each round performs one
requester increment followed by its number of capture-loop ticks (at most
one outstanding requester at a time, as the protocol assumes). -/
def serializedRounds : List Nat → Int × Nat → Int × Nat
  | [], p => p
  | m :: ms, (c, d) => serializedRounds ms (captureTicks m (reqIncrement c, d))

theorem captureTicks_zero (m : Nat) (d : Nat) : captureTicks m (0, d) = (0, d) := by
  induction m with
  | zero => rfl
  | succ m ih => simpa [captureTicks, captureFinally] using ih

theorem captureTicks_one (m : Nat) (hm : 1 ≤ m) (d : Nat) :
    captureTicks m (1, d) = (0, d + 1) := by
  cases m with
  | zero => omega
  | succ m =>
    show captureTicks m ((captureFinally 1).1, if (0 : Int) < 1 then d + 1 else d) = (0, d + 1)
    simpa [captureFinally] using captureTicks_zero m (d + 1)

/-- C3: the Snapshot Request protocol terminates without deadlock under
serialized requesters: (i) each requester action increments the counter by
exactly one; (ii) each fulfilling capture action (counter positive)
decrements it by exactly one and wakes all waiters exactly when it reaches
zero; (iii) the waiter blocks exactly while the counter is positive; and
(iv) for any serialized schedule of N requester calls, each answered by at
least one capture tick, exactly N effective decrements occur and the
counter returns to zero — so every requester's wait returns. -/
theorem snapshot_protocol_serialized (ms : List Nat) (hms : ∀ m ∈ ms, 1 ≤ m) :
    (∀ c : Int, reqIncrement c = c + 1) ∧
    (∀ c : Int, 0 < c → captureFinally c = (c - 1, decide (c - 1 = 0))) ∧
    (∀ c : Int, waiterBlocked c = false ↔ c ≤ 0) ∧
    serializedRounds ms (0, 0) = (0, ms.length) := by
  refine ⟨fun c => rfl, fun c hc => by simp [captureFinally, hc], fun c => by
    simp [waiterBlocked], ?_⟩
  have key : ∀ (l : List Nat), (∀ m ∈ l, 1 ≤ m) → ∀ d : Nat,
      serializedRounds l (0, d) = (0, d + l.length) := by
    intro l
    induction l with
    | nil => intro _ d; simp [serializedRounds]
    | cons m ms ih =>
      intro hl d
      have hm : 1 ≤ m := hl m (List.mem_cons_self m ms)
      show serializedRounds ms (captureTicks m (reqIncrement 0, d)) = _
      rw [show reqIncrement 0 = 1 from rfl, captureTicks_one m hm d,
        ih (fun x hx => hl x (List.mem_cons_of_mem m hx)) (d + 1)]
      simp only [List.length_cons, Prod.mk.injEq, true_and]
      omega
  simpa using key ms hms 0

/-- C3 witness: two serialized requester calls, answered by one and two
capture ticks respectively, produce exactly two decrements and end with
the counter at zero. -/
theorem snapshot_protocol_serialized_witness :
    serializedRounds [1, 2] (0, 0) = (0, 2) :=
  (snapshot_protocol_serialized [1, 2] (by decide)).2.2.2

/-- One operation on the snapshot counter: a requester increment or a
capture-loop tick (the finally block of `_capture_frame`). -/
inductive SnapOp
  | request
  | capture
deriving DecidableEq, Repr

/-- Effect of one snapshot-counter operation, from the code of both sides. -/
def snapStep (c : Int) : SnapOp → Int
  | SnapOp.request => reqIncrement c
  | SnapOp.capture => (captureFinally c).1

/-- The snapshot counter after an arbitrary interleaving of requester and
capture operations, starting from the initial value 0 set in
`Recorder.__init__`. -/
def snapRun (ops : List SnapOp) : Int := ops.foldl snapStep 0

theorem snapStep_nonneg (c : Int) (hc : 0 ≤ c) (op : SnapOp) : 0 ≤ snapStep c op := by
  cases op with
  | request => simp [snapStep, reqIncrement]; omega
  | capture =>
    simp only [snapStep, captureFinally]
    by_cases h : (0 : Int) < c <;> simp [h] <;> omega

/-- C9: the snapshot counter is never negative: it starts at 0, the
requester side only increments it, and the capture side only decrements it
when it is strictly positive, so every interleaving of the two operations
preserves `take_snapshot ≥ 0`. -/
theorem snapshot_counter_nonneg (ops : List SnapOp) : 0 ≤ snapRun ops := by
  have key : ∀ (l : List SnapOp) (c : Int), 0 ≤ c → 0 ≤ l.foldl snapStep c := by
    intro l
    induction l with
    | nil => intro c hc; simpa using hc
    | cons op l ih => intro c hc; exact ih _ (snapStep_nonneg c hc op)
  exact key ops 0 le_rfl

/-! ### Capture-and-acknowledge (`recording.py::_capture_frame`) -/

/-- Observable outcome of one `_capture_frame` call. -/
structure CaptureResult where
  persisted : Bool
  counter : Int
  notified : Bool
  raised : Bool
deriving DecidableEq, Repr

/-- The `_capture_frame` body: the try-block returns early without
persisting when no valid images are available, persists the copied frame
otherwise, and any exception raised while copying or writing is caught and
logged (never re-raised); the `finally` block then runs the guarded
decrement and notifies waiters at zero in every case. -/
def captureFrame (imagesValid persistFails : Bool) (c : Int) : CaptureResult :=
  let persisted := imagesValid && !persistFails
  let fin := captureFinally c
  ⟨persisted, fin.1, fin.2, false⟩

/-- C10: a pending snapshot request is acknowledged even when persistence
fails: with a positive counter, a `_capture_frame` call whose copy/write
step raises still decrements the counter in its finally block, notifies
all waiters exactly when the counter reaches zero, lets no exception
escape, and persists nothing; in particular with one pending request the
requester's wait condition becomes false. -/
theorem capture_frame_ack_on_failure (c : Int) (hc : 0 < c) :
    captureFrame true true c =
      ⟨false, c - 1, decide (c - 1 = 0), false⟩ ∧
    (captureFrame true true c).counter = (captureFrame true false c).counter ∧
    (captureFrame true true c).notified = (captureFrame true false c).notified ∧
    (c = 1 → waiterBlocked (captureFrame true true c).counter = false) := by
  refine ⟨?_, rfl, rfl, ?_⟩
  · simp [captureFrame, captureFinally, hc]
  · intro h1
    subst h1
    rfl

/-- C10 witness: one pending request, failing persistence: the counter
drops to zero, waiters are notified, no exception escapes, no frame is
persisted, and the requester's wait is released. -/
theorem capture_frame_ack_on_failure_witness :
    captureFrame true true 1 = ⟨false, 0, true, false⟩ ∧
    waiterBlocked (captureFrame true true 1).counter = false := by
  have h := capture_frame_ack_on_failure 1 (by decide)
  exact ⟨by simpa using h.1, h.2.2.2 rfl⟩

/-! ### Recorder capture loop (`recording.py::record`) -/

/-- The recorder configuration fields that drive the persist decision, from
`Recorder.__init__`: `camera.record` (`save_data`),
`camera.record_only_after_action`, `camera.save_images_individually`, and
the optional `camera.clip_length` (absent is `None`). -/
structure RecConfig where
  saveData : Bool
  recordOnlyAfterAction : Bool
  saveImagesIndividually : Bool
  clipLength : Option Nat
deriving DecidableEq, Repr

/-- The per-tick environment of one capture-loop iteration: the `pause`
flag, whether `ensure_images` finds valid frames, and the value of the
snapshot counter observed by the tick. -/
structure TickInput where
  paused : Bool
  imagesValid : Bool
  snapshot : Nat
deriving DecidableEq, Repr

/-- The mutable counters of the capture loop: `frame_counter` and
`video_counter`. -/
structure RecState where
  frameCounter : Nat
  videoCounter : Nat
deriving DecidableEq, Repr

/-- The writer-rotation condition of `record`:
`clip_length and frame_counter % clip_length == 0 and frame_counter != 0
and not save_images_individually`, with Python truthiness making both
`None` and `0` clip lengths falsy. -/
def rotateNow (cfg : RecConfig) (fc : Nat) : Bool :=
  match cfg.clipLength with
  | none => false
  | some L => !(L == 0) && (fc % L == 0) && !(fc == 0) && !cfg.saveImagesIndividually

/-- One non-stopped iteration of the `record` loop, from `recording.py`
lines 116–142: a paused tick, or a tick without valid images, does
nothing; otherwise, when the policy allows
(`not record_only_after_action or take_snapshot > 0`), `_capture_frame`
persists the frame (only when `save_data` is set) into the writer of the
current `video_counter`, then the rotation condition is checked on the
not-yet-incremented `frame_counter` (incrementing `video_counter` and
restarting the writers when it holds), and finally `frame_counter` is
incremented.  Returns the new counters and `some clipIndex` when a frame
was persisted to video clip `clipIndex`. -/
def recordTick (cfg : RecConfig) (s : RecState) (t : TickInput) : RecState × Option Nat :=
  if t.paused then (s, none)
  else if !t.imagesValid then (s, none)
  else if cfg.recordOnlyAfterAction = false ∨ 0 < t.snapshot then
    let wrote := if cfg.saveData then some s.videoCounter else none
    let s1 :=
      if rotateNow cfg s.frameCounter then
        { s with videoCounter := s.videoCounter + 1 }
      else s
    ({ s1 with frameCounter := s.frameCounter + 1 }, wrote)
  else (s, none)

/-- The `record` loop over a finite sequence of tick environments,
collecting the per-tick persistence events in order. -/
def recordRun (cfg : RecConfig) : RecState → List TickInput → RecState × List (Option Nat)
  | s, [] => (s, [])
  | s, t :: ts =>
    let p := recordTick cfg s t
    let q := recordRun cfg p.1 ts
    (q.1, p.2 :: q.2)

/-- The persist condition exactly as the claim states it: persist iff the
record-only-after-action policy is disabled, or it is enabled and the
snapshot counter is positive. -/
def claimPersistCond (recordOnlyAfterAction : Bool) (snapshot : Nat) : Bool :=
  !recordOnlyAfterAction || (recordOnlyAfterAction && decide (0 < snapshot))

/-- C6 counterexample: with recording disabled (`camera.record` false) a
non-paused tick with valid frames and the policy disabled persists
nothing, although the claimed persist condition holds — the claimed "if
and only if" fails on the code. -/
theorem record_persist_claim_counterexample :
    claimPersistCond false 0 = true ∧
    (recordTick ⟨false, false, false, none⟩ ⟨0, 0⟩ ⟨false, true, 0⟩).2 = none := by
  constructor <;> rfl

/-- C6 amended: on every non-paused capture tick with valid frames, the
Recorder persists the frame if and only if recording is enabled
(`save_data`) and (the record-only-after-action policy is disabled, or the
policy is enabled and the snapshot counter is positive); in particular,
with `record_only_after_action = true` and zero snapshot requests on every
tick, zero frames are persisted over any run. -/
theorem record_persist_iff (cfg : RecConfig) (s : RecState) (t : TickInput)
    (hp : t.paused = false) (hv : t.imagesValid = true) :
    ((recordTick cfg s t).2.isSome ↔
      cfg.saveData = true ∧
        (cfg.recordOnlyAfterAction = false ∨ 0 < t.snapshot)) ∧
    (∀ (s0 : RecState) (ts : List TickInput), cfg.recordOnlyAfterAction = true →
      (∀ u ∈ ts, u.snapshot = 0) →
      ((recordRun cfg s0 ts).2.all Option.isNone) = true) := by
  constructor
  · by_cases hcond : cfg.recordOnlyAfterAction = false ∨ 0 < t.snapshot
    · cases hsd : cfg.saveData with
      | true => simp [recordTick, hp, hv, hcond, hsd]
      | false => simp [recordTick, hp, hv, hcond, hsd]
    · simp [recordTick, hp, hv, hcond]
  · intro s0 ts hroa
    induction ts generalizing s0 with
    | nil => intro _; rfl
    | cons u ts ih =>
      intro hz
      have hu : u.snapshot = 0 := hz u (List.mem_cons_self u ts)
      have hcond : ¬(cfg.recordOnlyAfterAction = false ∨ 0 < u.snapshot) := by
        rw [hroa, hu]; simp
      have htail := ih ((recordTick cfg s0 u).1) (fun x hx => hz x (List.mem_cons_of_mem u hx))
      have hnone : (recordTick cfg s0 u).2 = none := by
        by_cases h1 : u.paused = true
        · simp [recordTick, h1]
        · by_cases h2 : u.imagesValid = true
          · simp [recordTick, eq_false_of_ne_true h1, h2, hcond]
          · simp [recordTick, eq_false_of_ne_true h1, eq_false_of_ne_true h2]
      simp only [recordRun, List.all_cons, hnone, Option.isNone_none, Bool.true_and]
      exact htail

/-- C6 amended witness: a non-paused valid tick with recording enabled and
the policy disabled persists a frame, and a two-tick run under the
enabled policy with zero snapshot requests persists nothing. -/
theorem record_persist_iff_witness :
    ((recordTick ⟨true, false, false, none⟩ ⟨0, 0⟩ ⟨false, true, 0⟩).2.isSome ↔
      (true = true ∧ (false = false ∨ (0 : Nat) < 0))) ∧
    ((recordRun ⟨true, true, false, none⟩ ⟨0, 0⟩
        [⟨false, true, 0⟩, ⟨false, true, 0⟩]).2.all Option.isNone) = true := by
  have h := record_persist_iff ⟨true, false, false, none⟩ ⟨0, 0⟩ ⟨false, true, 0⟩ rfl rfl
  refine ⟨h.1, ?_⟩
  have h2 := record_persist_iff ⟨true, true, false, none⟩ ⟨0, 0⟩ ⟨false, true, 0⟩ rfl rfl
  exact h2.2 ⟨0, 0⟩ [⟨false, true, 0⟩, ⟨false, true, 0⟩] rfl (by decide)

/-! ### Video-clip rotation (`recording.py::record` lines 123–138,
`_start_or_restart_video_writers`) -/

/-- Video-mode recorder configuration: recording enabled, policy disabled,
batched video writers, clip length `L`. -/
def videoCfg (L : Nat) : RecConfig :=
  ⟨true, false, false, some L⟩

/-- A non-paused capture tick with valid frames and no snapshot request. -/
def validTick : TickInput := ⟨false, true, 0⟩

theorem recordRun_append (cfg : RecConfig) (s : RecState) (ts us : List TickInput) :
    recordRun cfg s (ts ++ us) =
      ((recordRun cfg (recordRun cfg s ts).1 us).1,
        (recordRun cfg s ts).2 ++ (recordRun cfg (recordRun cfg s ts).1 us).2) := by
  induction ts generalizing s with
  | nil => rfl
  | cons t ts ih => simp [recordRun, ih]

theorem recordTick_video (L : Nat) (s : RecState) :
    recordTick (videoCfg L) s validTick =
      ({ frameCounter := s.frameCounter + 1,
         videoCounter :=
           if rotateNow (videoCfg L) s.frameCounter then s.videoCounter + 1
           else s.videoCounter },
        some s.videoCounter) := by
  simp [recordTick, videoCfg, validTick]
  split <;> rfl

theorem rotateNow_video (L : Nat) (hL : L ≠ 0) (fc : Nat) :
    rotateNow (videoCfg L) fc = ((fc % L == 0) && !(fc == 0)) := by
  have h0 : (L == 0) = false := by simp [hL]
  simp [rotateNow, videoCfg, h0]

theorem video_counter_step (L : Nat) (hL : 0 < L) (n : Nat) :
    (if rotateNow (videoCfg L) n then (n - 1) / L + 1 else (n - 1) / L) = n / L := by
  rw [rotateNow_video L (Nat.pos_iff_ne_zero.1 hL) n]
  cases n with
  | zero => simp
  | succ m =>
    have hs : (m + 1) / L = m / L + if L ∣ m + 1 then 1 else 0 := Nat.succ_div m L
    by_cases hd : L ∣ m + 1
    · have hmod : (m + 1) % L = 0 := Nat.mod_eq_zero_of_dvd hd
      simp [hmod, hs, hd, Nat.succ_sub_one]
    · have hmod : (m + 1) % L ≠ 0 := fun h => hd (Nat.dvd_of_mod_eq_zero h)
      simp [hmod, hs, hd, Nat.succ_sub_one]

/-- The persisted-frame event list of an `n`-tick video run, in closed
form: the i-th persisted frame goes to clip `(i - 1) / L`. -/
theorem recordRun_video_formula (L : Nat) (hL : 0 < L) (n : Nat) :
    recordRun (videoCfg L) ⟨0, 0⟩ (List.replicate n validTick) =
      (⟨n, (n - 1) / L⟩, (List.range n).map fun i => some ((i - 1) / L)) := by
  induction n with
  | zero => simp [recordRun]
  | succ n ih =>
    rw [List.replicate_succ', recordRun_append, ih, List.range_succ, List.map_append]
    simp only [recordRun, recordTick_video, List.map_cons, List.map_nil]
    exact Prod.ext (by simp [video_counter_step L hL n]) rfl

theorem countP_range_window (a b : Nat) :
    ∀ n : Nat, (List.range n).countP (fun i => decide (a ≤ i) && decide (i ≤ b)) =
      min n (b + 1) - min n a := by
  intro n
  induction n with
  | zero => simp
  | succ n ih =>
    rw [List.range_succ, List.countP_append, ih]
    by_cases h1 : a ≤ n <;> by_cases h2 : n ≤ b <;>
      simp [List.countP_cons, h1, h2] <;> omega

theorem count_some_map {α : Type} [DecidableEq α] (g : Nat → α) (k : α) :
    ∀ l : List Nat,
      ((l.map fun i => some (g i)).count (some k)) =
        l.countP fun i => decide (g i = k) := by
  intro l
  induction l with
  | nil => rfl
  | cons x l ih => simp [List.count_cons, List.countP_cons, ih]

theorem clip_zero_pred (L : Nat) (hL : 0 < L) (i : Nat) :
    decide ((i - 1) / L = 0) = (decide (0 ≤ i) && decide (i ≤ L)) := by
  have h2 : (i - 1) / L < 1 ↔ i - 1 < 1 * L := Nat.div_lt_iff_lt_mul hL
  have hiff : (i - 1) / L = 0 ↔ (0 ≤ i ∧ i ≤ L) := by
    constructor
    · intro h
      have hb : i - 1 < 1 * L := h2.1 (by rw [h]; exact Nat.zero_lt_one)
      omega
    · intro h
      exact Nat.lt_one_iff.mp (h2.2 (by omega))
  simp [hiff]

theorem clip_pos_pred (L k : Nat) (hL : 0 < L) (hk : 1 ≤ k) (i : Nat) :
    decide ((i - 1) / L = k) = (decide (k * L + 1 ≤ i) && decide (i ≤ (k + 1) * L)) := by
  have h1 : k ≤ (i - 1) / L ↔ k * L ≤ i - 1 := Nat.le_div_iff_mul_le hL
  have h2 : (i - 1) / L < k + 1 ↔ i - 1 < (k + 1) * L := Nat.div_lt_iff_lt_mul hL
  have hpos : 0 < k * L := Nat.mul_pos hk hL
  have hmul : (k + 1) * L = k * L + L := Nat.succ_mul k L
  have hiff : (i - 1) / L = k ↔ (k * L + 1 ≤ i ∧ i ≤ (k + 1) * L) := by
    constructor
    · intro h
      have ha : k * L ≤ i - 1 := h1.1 (le_of_eq h.symm)
      have hb : i - 1 < (k + 1) * L := h2.1 (by rw [h]; exact Nat.lt_succ_self k)
      omega
    · intro h
      have ha : k ≤ (i - 1) / L := h1.2 (by omega)
      have hb : (i - 1) / L < k + 1 := h2.2 (by omega)
      omega
  simp [hiff]

/-- Number of persisted frames assigned to clip `k` during an `n`-tick
video run. -/
def framesInClip (L n k : Nat) : Nat :=
  ((recordRun (videoCfg L) ⟨0, 0⟩ (List.replicate n validTick)).2).count (some k)

theorem framesInClip_zero (L : Nat) (hL : 0 < L) (n : Nat) (hn : L + 1 ≤ n) :
    framesInClip L n 0 = L + 1 := by
  unfold framesInClip
  rw [recordRun_video_formula L hL n, count_some_map,
    List.countP_congr fun i _ => by rw [clip_zero_pred L hL i],
    countP_range_window 0 L n]
  omega

theorem framesInClip_pos (L k : Nat) (hL : 0 < L) (hk : 1 ≤ k) (n : Nat)
    (hn : (k + 1) * L + 1 ≤ n) :
    framesInClip L n k = L := by
  unfold framesInClip
  rw [recordRun_video_formula L hL n, count_some_map,
    List.countP_congr fun i _ => by rw [clip_pos_pred L k hL hk i],
    countP_range_window (k * L + 1) ((k + 1) * L) n]
  have hmul : (k + 1) * L = k * L + L := Nat.succ_mul k L
  omega

/-- C7 counterexample: in video mode with clip length 2, after three valid
ticks the writers have been rotated once (the first clip is complete), yet
the completed first clip received three frames, not the configured two;
the rotation fired when the persisted-frame count was 3, which is not a
positive multiple of the clip length. -/
theorem record_clip_length_counterexample :
    (recordRun (videoCfg 2) ⟨0, 0⟩ (List.replicate 3 validTick)).1.videoCounter = 1 ∧
    framesInClip 2 3 0 = 3 ∧
    (videoCfg 2).clipLength = some 2 ∧
    ¬ (3 : Nat) % 2 = 0 := by
  refine ⟨?_, ?_, rfl, by decide⟩ <;> decide

/-- C7 amended: in video mode with clip length `L > 0`, the capture loop
writes the i-th persisted frame (counting from 0) to the writer of clip
`(i - 1) / L` and rotates the writers — after the tick's frame has been
written — exactly at the ticks whose pre-increment frame counter is a
positive multiple of `L`; consequently the first completed clip contains
`L + 1` frames and every later completed clip contains exactly `L`
frames. -/
theorem record_clip_rotation_off_by_one (L : Nat) (hL : 0 < L) (n : Nat) :
    recordRun (videoCfg L) ⟨0, 0⟩ (List.replicate n validTick) =
      (⟨n, (n - 1) / L⟩, (List.range n).map fun i => some ((i - 1) / L)) ∧
    (∀ fc, rotateNow (videoCfg L) fc = ((fc % L == 0) && !(fc == 0))) ∧
    (L + 1 ≤ n → framesInClip L n 0 = L + 1) ∧
    (∀ k, 1 ≤ k → (k + 1) * L + 1 ≤ n → framesInClip L n k = L) :=
  ⟨recordRun_video_formula L hL n,
   rotateNow_video L (Nat.pos_iff_ne_zero.1 hL),
   framesInClip_zero L hL n,
   fun k hk hn => framesInClip_pos L k hL hk n hn⟩

/-- C7 amended witness: with clip length 2 and nine ticks, the first clip
holds three frames and the completed second clip holds exactly two. -/
theorem record_clip_rotation_off_by_one_witness :
    framesInClip 2 9 0 = 3 ∧ framesInClip 2 9 1 = 2 := by
  have h := record_clip_rotation_off_by_one 2 (by decide) 9
  exact ⟨h.2.2.1 (by decide), h.2.2.2 1 (by decide) (by decide)⟩

/-! ### Preview pull (`coordinator.py::get_ui_update`) -/

/-- The error raised by `queue.Queue.get` when the timeout elapses on an
empty queue (`queue.Empty`). -/
inductive QueueEmpty
  | empty
deriving DecidableEq, Repr

/-- The blocking-with-timeout `ui_queue.get(timeout=...)` call on a FIFO
queue, modelled on the queue's pending contents (oldest first): it removes
and returns the front element, and raises `queue.Empty` when no element is
pending within the timeout. -/
def uiQueueGet {α : Type} : List α → Except QueueEmpty (α × List α)
  | [] => Except.error QueueEmpty.empty
  | m :: ms => Except.ok (m, ms)

/-- The `get_ui_update` method: `try: return self.ui_queue.get(timeout=timeout)
except Empty: return None`. -/
def getUiUpdate {α : Type} (q : List α) : Option α :=
  match uiQueueGet q with
  | Except.ok p => some p.1
  | Except.error _ => none

/-- The message the claim says is returned: the most recent (newest)
pending frame message. -/
def mostRecentMessage {α : Type} (q : List α) : Option α := q.getLast?

/-- C8 counterexample: with two pending messages (0 enqueued before 1) the
pull returns the oldest message 0, not the most recent message 1. -/
theorem get_ui_update_not_most_recent :
    getUiUpdate [0, 1] = some 0 ∧
    mostRecentMessage [0, 1] = some (1 : Nat) ∧
    getUiUpdate [0, 1] ≠ mostRecentMessage [0, 1] := by
  refine ⟨rfl, rfl, by decide⟩

/-- C8 amended: every call to `get_ui_update` returns the oldest pending
message of the UI queue (its FIFO head) when one exists and `None` when
the queue is empty; the empty-queue exception is caught and never
propagates (the function is total and `Option`-valued). -/
theorem get_ui_update_fifo_head_or_none {α : Type} (q : List α) :
    getUiUpdate q = q.head? ∧ getUiUpdate ([] : List α) = none := by
  cases q with
  | nil => exact ⟨rfl, rfl⟩
  | cons m ms => exact ⟨rfl, rfl⟩

/-! ### Session directory allocation (`file_manager.py::get_session_dirs`) -/

/-- Decimal digit to its character, modelling one character of Python's
`str(new_id)`. -/
def digitToChar : Nat → Char
  | 0 => '0'
  | 1 => '1'
  | 2 => '2'
  | 3 => '3'
  | 4 => '4'
  | 5 => '5'
  | 6 => '6'
  | 7 => '7'
  | 8 => '8'
  | _ => '9'

/-- Fuel-indexed helper computing decimal digits, most significant first;
the fuel is an upper bound on the value and only bounds the recursion
depth. -/
def natDigitsAux : Nat → Nat → List Nat
  | _, 0 => []
  | 0, _ + 1 => []
  | fuel + 1, n + 1 => natDigitsAux fuel ((n + 1) / 10) ++ [(n + 1) % 10]

/-- Decimal digits of a natural number, most significant first (empty for
0). -/
def natDigits (n : Nat) : List Nat := natDigitsAux n n

theorem natDigitsAux_congr (n : Nat) : ∀ fuel fuel' : Nat, n ≤ fuel → n ≤ fuel' →
    natDigitsAux fuel n = natDigitsAux fuel' n := by
  induction n using Nat.strong_induction_on with
  | _ n ih =>
    intro fuel fuel' h h'
    cases n with
    | zero => cases fuel <;> cases fuel' <;> rfl
    | succ m =>
      cases fuel with
      | zero => omega
      | succ f =>
        cases fuel' with
        | zero => omega
        | succ f' =>
          show natDigitsAux f ((m + 1) / 10) ++ [(m + 1) % 10] =
            natDigitsAux f' ((m + 1) / 10) ++ [(m + 1) % 10]
          have hq : (m + 1) / 10 ≤ m := by
            have := Nat.div_lt_self (Nat.succ_pos m) (show 1 < 10 by norm_num)
            omega
          rw [ih ((m + 1) / 10) (by omega) f f' (by omega) (by omega)]

theorem natDigits_succ (m : Nat) :
    natDigits (m + 1) = natDigits ((m + 1) / 10) ++ [(m + 1) % 10] := by
  have hq : (m + 1) / 10 ≤ m := by
    have := Nat.div_lt_self (Nat.succ_pos m) (show 1 < 10 by norm_num)
    omega
  show natDigitsAux m ((m + 1) / 10) ++ [(m + 1) % 10] = _
  rw [natDigitsAux_congr ((m + 1) / 10) m ((m + 1) / 10) hq le_rfl]
  rfl

/-- Python's `str(n)` for a non-negative integer: its decimal numeral. -/
def natToName (n : Nat) : String :=
  String.mk (if n = 0 then [digitToChar 0] else (natDigits n).map digitToChar)

/-- Python's `int(x)` on an all-digit string: the decimal value of its
character sequence. -/
def parseName (s : String) : Nat :=
  s.data.foldl (fun a c => a * 10 + (c.toNat - 48)) 0

/-- Python's `x.isdigit()` on a directory name: non-empty and every
character a decimal digit. -/
def isNumericName (s : String) : Bool :=
  !s.data.isEmpty && s.data.all Char.isDigit

/-- `os.path.join` for the simple relative-component case used here. -/
def pathJoin (a b : String) : String := a ++ "/" ++ b

/-- The three directories `get_session_dirs` returns. -/
structure SessionDirs where
  sessionDir : String
  taskDir : String
  restoreDir : String
deriving DecidableEq, Repr

/-- The session allocator `file_manager.py::get_session_dirs`, modelled on
the listing of the base directory's immediate entries: it collects the
entries whose names parse as non-negative integers, picks
`max(session_ids, default=0) + 1` as the new id, and creates
`base/<id>/task` and `base/<id>/restore` (so the new numeric entry is
present in the next listing).  Returns the directory paths, the new id,
and the base directory's listing after the call. -/
def getSessionDirs (baseDir : String) (listing : List String) :
    SessionDirs × Nat × List String :=
  let sessionIds := (listing.filter isNumericName).map parseName
  let newId := sessionIds.foldl max 0 + 1
  let sessionDir := pathJoin baseDir (natToName newId)
  (⟨sessionDir, pathJoin sessionDir "task", pathJoin sessionDir "restore"⟩,
    newId, natToName newId :: listing)

theorem digitToChar_isDigit (d : Nat) (hd : d < 10) : (digitToChar d).isDigit = true := by
  interval_cases d <;> decide

theorem digitToChar_val (d : Nat) (hd : d < 10) : (digitToChar d).toNat - 48 = d := by
  interval_cases d <;> decide

theorem natDigits_lt_ten (n : Nat) : ∀ d ∈ natDigits n, d < 10 := by
  induction n using Nat.strong_induction_on with
  | _ n ih =>
    match n with
    | 0 => intro d hd; simp [natDigits, natDigitsAux] at hd
    | m + 1 =>
      intro d hd
      rw [natDigits_succ] at hd
      rcases List.mem_append.mp hd with h | h
      · exact ih ((m + 1) / 10) (Nat.div_lt_self (Nat.succ_pos m) (by norm_num)) d h
      · rw [List.mem_singleton.mp h]
        exact Nat.mod_lt _ (by norm_num)

theorem natDigits_val (n : Nat) :
    (natDigits n).foldl (fun a d => a * 10 + d) 0 = n := by
  induction n using Nat.strong_induction_on with
  | _ n ih =>
    match n with
    | 0 => simp [natDigits, natDigitsAux]
    | m + 1 =>
      have ihd := ih ((m + 1) / 10) (Nat.div_lt_self (Nat.succ_pos m) (by norm_num))
      rw [natDigits_succ, List.foldl_append, ihd]
      simp only [List.foldl_cons, List.foldl_nil]
      omega

theorem natDigits_ne_nil (n : Nat) (h : n ≠ 0) : natDigits n ≠ [] := by
  match n with
  | m + 1 =>
    rw [natDigits_succ]
    simp

theorem foldl_parse_map (l : List Nat) (hl : ∀ d ∈ l, d < 10) :
    ∀ a : Nat, (l.map digitToChar).foldl (fun a c => a * 10 + (c.toNat - 48)) a =
      l.foldl (fun a d => a * 10 + d) a := by
  induction l with
  | nil => intro a; rfl
  | cons d l ih =>
    intro a
    have hd : d < 10 := hl d (List.mem_cons_self d l)
    simp only [List.map_cons, List.foldl_cons]
    rw [digitToChar_val d hd]
    exact ih (fun x hx => hl x (List.mem_cons_of_mem d hx)) _

theorem parseName_natToName (n : Nat) : parseName (natToName n) = n := by
  by_cases h : n = 0
  · subst h; rfl
  · have hname : natToName n = String.mk ((natDigits n).map digitToChar) := by
      simp [natToName, h]
    rw [hname]
    show ((natDigits n).map digitToChar).foldl (fun a c => a * 10 + (c.toNat - 48)) 0 = n
    rw [foldl_parse_map (natDigits n) (natDigits_lt_ten n) 0]
    exact natDigits_val n

theorem isNumericName_natToName (n : Nat) : isNumericName (natToName n) = true := by
  by_cases h : n = 0
  · subst h; rfl
  · have h1 : (natDigits n).map digitToChar ≠ [] := by
      intro hc
      exact natDigits_ne_nil n h (List.map_eq_nil_iff.mp hc)
    simp [isNumericName, natToName, h, h1]
    intro d hd
    exact digitToChar_isDigit d (natDigits_lt_ten n d hd)

theorem le_foldl_max (l : List Nat) : ∀ a : Nat, a ≤ l.foldl max a := by
  induction l with
  | nil => intro a; exact le_rfl
  | cons x l ih => intro a; exact le_trans (Nat.le_max_left a x) (ih (max a x))

theorem mem_le_foldl_max (l : List Nat) : ∀ a b : Nat, b ∈ l → b ≤ l.foldl max a := by
  induction l with
  | nil => intro a b hb; cases hb
  | cons x l ih =>
    intro a b hb
    rcases List.mem_cons.mp hb with rfl | hb
    · exact le_trans (Nat.le_max_right a b) (le_foldl_max l (max a b))
    · exact ih (max a x) b hb

/-- C5: session directory allocation returns
`max(existing numeric subdirectory names) + 1`, or 1 when none exists: the
new id is 1 on a listing with no numeric entry, exceeds every numeric
entry of the listing, and a subsequent allocation against the resulting
directory yields a strictly larger id; the task and restore directories
are created under the new session directory; three successive calls on an
empty directory yield the ids 1, 2, 3. -/
theorem session_id_allocation (baseDir : String) (listing : List String) :
    ((listing.filter isNumericName) = [] → (getSessionDirs baseDir listing).2.1 = 1) ∧
    (∀ s ∈ listing, isNumericName s = true →
      parseName s < (getSessionDirs baseDir listing).2.1) ∧
    (getSessionDirs baseDir listing).2.1 <
      (getSessionDirs baseDir (getSessionDirs baseDir listing).2.2).2.1 ∧
    (getSessionDirs baseDir listing).1.taskDir =
      pathJoin (getSessionDirs baseDir listing).1.sessionDir "task" ∧
    (getSessionDirs baseDir listing).1.restoreDir =
      pathJoin (getSessionDirs baseDir listing).1.sessionDir "restore" ∧
    ((getSessionDirs "base" []).2.1 = 1 ∧
      (getSessionDirs "base" (getSessionDirs "base" []).2.2).2.1 = 2 ∧
      (getSessionDirs "base"
        (getSessionDirs "base" (getSessionDirs "base" []).2.2).2.2).2.1 = 3) := by
  refine ⟨?_, ?_, ?_, rfl, rfl, ?_, ?_, ?_⟩
  · intro h
    simp [getSessionDirs, h]
  · intro s hs hnum
    have hmem : parseName s ∈ (listing.filter isNumericName).map parseName :=
      List.mem_map_of_mem parseName (List.mem_filter.mpr ⟨hs, hnum⟩)
    have hle := mem_le_foldl_max ((listing.filter isNumericName).map parseName)
      0 (parseName s) hmem
    simp only [getSessionDirs]
    omega
  · have key : ∀ i1 : Nat,
        i1 ≤ (((natToName i1 :: listing).filter isNumericName).map parseName).foldl max 0 := by
      intro i1
      have hfilter :
          ((natToName i1 :: listing).filter isNumericName) =
            natToName i1 :: listing.filter isNumericName := by
        rw [List.filter_cons_of_pos (isNumericName_natToName i1)]
      have hmem : parseName (natToName i1) ∈
          ((natToName i1 :: listing).filter isNumericName).map parseName := by
        rw [hfilter]
        exact List.mem_map_of_mem parseName (List.mem_cons_self _ _)
      have hle := mem_le_foldl_max
        (((natToName i1 :: listing).filter isNumericName).map parseName)
        0 (parseName (natToName i1)) hmem
      rwa [parseName_natToName] at hle
    have h2 := key (((listing.filter isNumericName).map parseName).foldl max 0 + 1)
    simp only [getSessionDirs]
    omega
  · rfl
  · rfl
  · rfl

/-- C5 witness: on a listing holding one numeric entry "7" and one
non-numeric entry, the allocated id 8 exceeds the parsed entry 7, and the
concrete chain 1, 2, 3 holds on an empty base directory. -/
theorem session_id_allocation_witness :
    parseName "7" < (getSessionDirs "base" ["7", "x"]).2.1 ∧
    (getSessionDirs "base" []).2.1 = 1 :=
  ⟨(session_id_allocation "base" ["7", "x"]).2.1 "7" (by decide) (by decide),
   (session_id_allocation "base" []).2.2.2.2.2.1⟩

end Autograsper
